import Mathlib

/-!
Shallow embedding of the rpi-ft5406 memory-based touchscreen driver
(drivers/input/touchscreen/rpi-ft5406.c): the poll-cycle body of
`ft5406_thread` (frame decode, coordinate transform, identity
reconciliation, event emission) and the sysfs `enable_store` handler.
-/

namespace FT5406

/-- MAXIMUM_SUPPORTED_POINTS from the source. -/
def MAXIMUM_SUPPORTED_POINTS : Nat := 10

/-- FTS_TOUCH_DOWN event type code. -/
def FTS_TOUCH_DOWN : Nat := 0

/-- FTS_TOUCH_UP event type code. -/
def FTS_TOUCH_UP : Nat := 1

/-- FTS_TOUCH_CONTACT event type code. -/
def FTS_TOUCH_CONTACT : Nat := 2

/-- One raw point record of `struct ft5406_regs` (six uint8_t fields). -/
structure Touch where
  xh : Nat
  xl : Nat
  yh : Nat
  yl : Nat
  pressure : Nat
  area : Nat
deriving DecidableEq, Repr

/-- The memory snapshot `struct ft5406_regs`. The declared point array has
MAXIMUM_SUPPORTED_POINTS entries; `point` models the memory the expression
`regs.point[i]` dereferences at index `i`, with indices at or beyond
MAXIMUM_SUPPORTED_POINTS lying outside the declared array. -/
structure Regs where
  device_mode : Nat
  gesture_id : Nat
  num_points : Nat
  point : Nat → Touch

/-- The uint8_t read of `regs.num_points`. -/
def numPoints (regs : Regs) : Nat := regs.num_points % 256

/-- Driver configuration fields of `struct ft5406` consumed by the thread
(`max_x`/`max_y` are uint16_t, the flags are truthiness-tested uint8_t). -/
structure Cfg where
  max_x : Int
  max_y : Int
  hflip : Bool
  vflip : Bool
  xyswap : Bool
deriving DecidableEq, Repr

/-- `x = (((int) regs.point[i].xh & 0xf) << 8) + regs.point[i].xl`. -/
def touch_x (t : Touch) : Int := (((t.xh % 256) &&& 0xf) <<< 8 + t.xl % 256 : Nat)

/-- `y = (((int) regs.point[i].yh & 0xf) << 8) + regs.point[i].yl`. -/
def touch_y (t : Touch) : Int := (((t.yh % 256) &&& 0xf) <<< 8 + t.yl % 256 : Nat)

/-- `touchid = (regs.point[i].yh >> 4) & 0xf`. -/
def touch_id (t : Touch) : Nat := ((t.yh % 256) >>> 4) &&& 0xf

/-- `event_type = (regs.point[i].xh >> 6) & 0x03`. -/
def event_type (t : Touch) : Nat := ((t.xh % 256) >>> 6) &&& 0x03

/-- The coordinate transform applied to a Down/Contact observation
(lines "if (ts->hflip) ... if (ts->vflip) ... if (ts->xyswap) swap"). -/
def transform (cfg : Cfg) (p : Int × Int) : Int × Int :=
  let x := if cfg.hflip then cfg.max_x - 1 - p.1 else p.1
  let y := if cfg.vflip then cfg.max_y - 1 - p.2 else p.2
  if cfg.xyswap then (y, x) else (x, y)

/-- The coordinate transform as the spec words it, for comparison with
`transform`: if hflip then x is max_x - 1 - x, if vflip then y is
max_y - 1 - y, and if xyswap the two results are swapped after the flips. -/
def spec_transform (cfg : Cfg) (x y : Int) : Int × Int :=
  let x1 := if cfg.hflip then cfg.max_x - 1 - x else x
  let y1 := if cfg.vflip then cfg.max_y - 1 - y else y
  if cfg.xyswap then (y1, x1) else (x1, y1)

/-- Abstraction of the input-core calls the thread makes, at the
granularity of the spec: one absolute-position update per emitted
Down/Contact slot report, one release per dropped slot, the
pointer-emulation call, and the sync marker. -/
inductive Event where
  | update (id : Nat) (x y : Int)
  | release (id : Nat)
  | pointerEmu
  | sync
deriving DecidableEq, Repr

/-- Body of the per-point decode loop: `modified_ids |= ID_TO_BIT(touchid)`
unconditionally, then the Down/Contact branch transforms the coordinates and
reports the slot. -/
def pointStep (cfg : Cfg) (t : Touch) (acc : Nat × List Event) : Nat × List Event :=
  let modified_ids := acc.1 ||| (1 <<< touch_id t)
  if event_type t = FTS_TOUCH_DOWN ∨ event_type t = FTS_TOUCH_CONTACT then
    let xy := transform cfg (touch_x t, touch_y t)
    (modified_ids, acc.2 ++ [Event.update (touch_id t) xy.1 xy.2])
  else
    (modified_ids, acc.2)

/-- The indices `i` at which the decode loop
`for (i = 0; i < regs.num_points; i++)` dereferences `regs.point[i]`. -/
def decodeReadIndices (regs : Regs) : List Nat := List.range (numPoints regs)

/-- The decode loop over the first `num_points` point records, accumulating
`modified_ids` (from 0) and the update events in emission order. -/
def decodeLoop (cfg : Cfg) (regs : Regs) : Nat × List Event :=
  (decodeReadIndices regs).foldl (fun acc i => pointStep cfg (regs.point i) acc) (0, [])

/-- All-ones mask of the 32-bit `int` arithmetic of the thread. -/
def UINT32_MASK : Nat := 2 ^ 32 - 1

/-- `released_ids = known_ids & ~modified_ids` in 32-bit int arithmetic. -/
def releasedIds (known modified : Nat) : Nat :=
  known &&& (UINT32_MASK ^^^ (modified &&& UINT32_MASK))

/-- Body of the release loop: for bit `i` of `released_ids`, report the slot
released and clear the bit from `modified_ids`. -/
def releaseAcc (released_ids : Nat) (acc : Nat × List Event) (i : Nat) : Nat × List Event :=
  if released_ids &&& (1 <<< i) ≠ 0 then
    (acc.1 &&& (UINT32_MASK ^^^ (1 <<< i)), acc.2 ++ [Event.release i])
  else acc

/-- The release loop `for (i = 0; released_ids && i < MAXIMUM_SUPPORTED_POINTS; i++)`:
when `released_ids` is zero the condition fails immediately; otherwise it scans
bit indices 0 .. MAXIMUM_SUPPORTED_POINTS - 1. Returns the final
`modified_ids` and the release events in emission order. -/
def runReleases (released_ids modified : Nat) : Nat × List Event :=
  if released_ids = 0 then (modified, [])
  else (List.range MAXIMUM_SUPPORTED_POINTS).foldl (releaseAcc released_ids) (modified, [])

/-- One iteration of the polling thread after the frame copy and the
sentinel write-back: the staleness/no-op guard, the decode loop, the release
loop, `known_ids = modified_ids`, pointer emulation and sync. Returns the new
`known_ids` and the events emitted this cycle in order. -/
def ft5406_cycle (cfg : Cfg) (known_ids : Nat) (regs : Regs) : Nat × List Event :=
  if numPoints regs = 99 ∨ (numPoints regs = 0 ∧ known_ids = 0) then
    (known_ids, [])
  else
    let dec := decodeLoop cfg regs
    let rel := releasedIds known_ids dec.1
    let fin := runReleases rel dec.1
    (fin.1, dec.2 ++ fin.2 ++ [Event.pointerEmu, Event.sync])

/-- Concrete configuration: 800x480, no flips, no swap. -/
def cfg0 : Cfg := ⟨800, 480, false, false, false⟩

/-- An all-zero point record. -/
def pt0 : Touch := ⟨0, 0, 0, 0, 0, 0⟩

/-- A record encoding an Up observation for id 3 (xh = 0x40, yh = 0x30). -/
def tUp3 : Touch := ⟨0x40, 0, 0x30, 0, 0, 0⟩

/-- A record encoding a Down observation for id 3 at (100, 200). -/
def tDown3 : Touch := ⟨0, 100, 0x30, 200, 0, 0⟩

/-- A record encoding a Down observation for id 12 at (50, 60) (yh = 0xC0). -/
def tDown12 : Touch := ⟨0, 50, 0xC0, 60, 0, 0⟩

/-- Frame with one point: an Up observation for id 3. -/
def regsUp3 : Regs := ⟨0, 0, 1, fun _ => tUp3⟩

/-- Frame with one point: a Down observation for id 3 at (100, 200). -/
def regsS : Regs := ⟨0, 0, 1, fun _ => tDown3⟩

/-- Frame with one point: a Down observation for id 12. -/
def regsDown12 : Regs := ⟨0, 0, 1, fun _ => tDown12⟩

/-- Frame with zero points. -/
def regsEmpty : Regs := ⟨0, 0, 0, fun _ => pt0⟩

/-- Stale frame: the sentinel count 99. -/
def regs99 : Regs := ⟨0, 0, 99, fun _ => pt0⟩

/-- Frame whose count field holds 11, above the declared array size. -/
def regs11 : Regs := ⟨0, 0, 11, fun _ => pt0⟩

/-- Environment of one `enable_store` call: the `kstrtouint` outcome (a
negative errno or the parsed value), whether `kthread_run` returns a valid
task pointer (`IS_ERR` false), and the `kthread_stop` return value. -/
structure StoreEnv where
  kstrtouint : Except Int Nat
  kthread_run_ok : Bool
  kthread_stop_err : Int
deriving Repr

/-- The sysfs `enable_store` handler: parse failures return the errno; an
unchanged value jumps to `out`; otherwise the start/stop transition runs and
`ts->enable = !!val` only on its success; every path through `out` returns
`count`. Result: the new `enable` field and the returned ssize_t. -/
def enable_store (enable : Bool) (env : StoreEnv) (count : Int) : Bool × Int :=
  match env.kstrtouint with
  | Except.error e => (enable, e)
  | Except.ok val =>
    if enable = decide (val ≠ 0) then (enable, count)
    else if val ≠ 0 then
      if env.kthread_run_ok then (true, count) else (enable, count)
    else
      if env.kthread_stop_err = 0 then (false, count) else (enable, count)

/-- A store environment where the write parses as 1 but `kthread_run` fails. -/
def envRunFail : StoreEnv := ⟨Except.ok 1, false, 0⟩

/-- A store environment where the write parses as 0 but `kthread_stop` fails. -/
def envStopFail : StoreEnv := ⟨Except.ok 0, true, -22⟩

/-! ### Bit-level helper lemmas -/

lemma land_one_shl (n i : Nat) : n &&& (1 <<< i) ≠ 0 ↔ n.testBit i = true := by
  rw [Nat.one_shiftLeft]
  constructor
  · intro h
    by_contra hb
    simp only [Bool.not_eq_true] at hb
    apply h
    apply Nat.eq_of_testBit_eq
    intro j
    simp only [Nat.testBit_and, Nat.testBit_two_pow, Nat.zero_testBit]
    rcases eq_or_ne i j with rfl | hij
    · simp [hb]
    · simp [hij]
  · intro h h0
    have h1 := congrArg (fun x => x.testBit i) h0
    simp [Nat.testBit_and, Nat.testBit_two_pow, h] at h1

lemma mask_testBit (b : Nat) : UINT32_MASK.testBit b = decide (b < 32) := by
  have h : UINT32_MASK = 2 ^ 32 - 1 := rfl
  rw [h, Nat.testBit_two_pow_sub_one]

lemma releasedIds_testBit (k m b : Nat) (hb : b < 32) :
    (releasedIds k m).testBit b = (k.testBit b && !m.testBit b) := by
  simp [releasedIds, Nat.testBit_and, Nat.testBit_xor, mask_testBit, hb]

lemma touch_id_lt (t : Touch) : touch_id t < 16 := by
  have h : touch_id t ≤ 15 := Nat.and_le_right
  omega

lemma testBit_ne_zero {n b : Nat} (h : n.testBit b = true) : n ≠ 0 := by
  intro h0
  rw [h0, Nat.zero_testBit] at h
  exact Bool.false_ne_true h

/-! ### Decode-loop characterization -/

lemma pointStep_fst (cfg : Cfg) (t : Touch) (acc : Nat × List Event) :
    (pointStep cfg t acc).1 = acc.1 ||| (1 <<< touch_id t) := by
  unfold pointStep
  split <;> rfl

lemma pointStep_snd (cfg : Cfg) (t : Touch) (acc : Nat × List Event) :
    (pointStep cfg t acc).2 = acc.2 ∨
      (pointStep cfg t acc).2 = acc.2 ++ [Event.update (touch_id t)
        (transform cfg (touch_x t, touch_y t)).1 (transform cfg (touch_x t, touch_y t)).2] := by
  unfold pointStep
  split
  · right; rfl
  · left; rfl

lemma decode_foldl_fst_testBit (cfg : Cfg) (f : Nat → Touch) (l : List Nat)
    (acc : Nat × List Event) (b : Nat) :
    ((l.foldl (fun a i => pointStep cfg (f i) a) acc).1).testBit b
      = (acc.1.testBit b || l.any (fun i => decide (touch_id (f i) = b))) := by
  induction l generalizing acc with
  | nil => simp
  | cons i l ih =>
    rw [List.foldl_cons, ih, pointStep_fst, Nat.testBit_or, Nat.one_shiftLeft,
      Nat.testBit_two_pow, List.any_cons, Bool.or_assoc]

lemma decode_foldl_snd_mem (cfg : Cfg) (f : Nat → Touch) (l : List Nat)
    (acc : Nat × List Event) :
    ∀ e ∈ (l.foldl (fun a i => pointStep cfg (f i) a) acc).2,
      e ∈ acc.2 ∨ ∃ i ∈ l, e = Event.update (touch_id (f i))
          (transform cfg (touch_x (f i), touch_y (f i))).1
          (transform cfg (touch_x (f i), touch_y (f i))).2 := by
  induction l generalizing acc with
  | nil => simp
  | cons i l ih =>
    intro e he
    rw [List.foldl_cons] at he
    rcases ih _ e he with h | ⟨j, hj, hje⟩
    · rcases pointStep_snd cfg (f i) acc with hs | hs
      · rw [hs] at h
        exact Or.inl h
      · rw [hs, List.mem_append] at h
        rcases h with h | h
        · exact Or.inl h
        · right
          refine ⟨i, List.mem_cons_self i l, ?_⟩
          simpa using h
    · exact Or.inr ⟨j, List.mem_cons_of_mem i hj, hje⟩

/-! ### Release-loop characterization -/

lemma release_foldl_snd (rel : Nat) (l : List Nat) (acc : Nat × List Event) :
    (l.foldl (releaseAcc rel) acc).2
      = acc.2 ++ (l.filter (fun i => decide (rel &&& (1 <<< i) ≠ 0))).map Event.release := by
  induction l generalizing acc with
  | nil => simp
  | cons i l ih =>
    rw [List.foldl_cons, ih, List.filter_cons]
    by_cases h : rel &&& (1 <<< i) ≠ 0
    · simp [releaseAcc, h]
    · simp [releaseAcc, h]

lemma release_foldl_fst_testBit (rel : Nat) (l : List Nat) (acc : Nat × List Event)
    (b : Nat) (hb : b < 32) :
    ((l.foldl (releaseAcc rel) acc).1).testBit b
      = (acc.1.testBit b && !(rel.testBit b && l.any (fun i => decide (i = b)))) := by
  induction l generalizing acc with
  | nil => simp
  | cons i l ih =>
    rw [List.foldl_cons, ih, List.any_cons]
    by_cases h : rel &&& (1 <<< i) ≠ 0
    · have hi : rel.testBit i = true := (land_one_shl rel i).mp h
      simp only [releaseAcc, if_pos h]
      rcases eq_or_ne i b with rfl | hib
      · simp [Nat.testBit_and, mask_testBit, Nat.testBit_xor,
          Nat.one_shiftLeft, Nat.testBit_two_pow, hb, hi]
      · simp [Nat.testBit_and, mask_testBit, Nat.testBit_xor,
          Nat.one_shiftLeft, Nat.testBit_two_pow, hb, hib]
    · have hi : rel.testBit i = false := by
        by_contra hc
        simp only [Bool.not_eq_false] at hc
        exact h ((land_one_shl rel i).mpr hc)
      simp only [releaseAcc, if_neg h]
      rcases eq_or_ne i b with rfl | hib
      · simp [hi]
      · simp [hib]

/-! ### Cycle-level lemmas -/

lemma cycle_processing (cfg : Cfg) (known : Nat) (regs : Regs)
    (h : ¬(numPoints regs = 99 ∨ (numPoints regs = 0 ∧ known = 0))) :
    ft5406_cycle cfg known regs =
      ((runReleases (releasedIds known (decodeLoop cfg regs).1) (decodeLoop cfg regs).1).1,
       (decodeLoop cfg regs).2
         ++ (runReleases (releasedIds known (decodeLoop cfg regs).1) (decodeLoop cfg regs).1).2
         ++ [Event.pointerEmu, Event.sync]) := by
  unfold ft5406_cycle
  rw [if_neg h]

lemma decodeLoop_fst_testBit (cfg : Cfg) (regs : Regs) (b : Nat) :
    ((decodeLoop cfg regs).1).testBit b
      = (decodeReadIndices regs).any (fun i => decide (touch_id (regs.point i) = b)) := by
  unfold decodeLoop
  rw [decode_foldl_fst_testBit]
  simp

lemma decodeLoop_snd_mem (cfg : Cfg) (regs : Regs) :
    ∀ e ∈ (decodeLoop cfg regs).2, ∃ i ∈ decodeReadIndices regs,
      e = Event.update (touch_id (regs.point i))
        (transform cfg (touch_x (regs.point i), touch_y (regs.point i))).1
        (transform cfg (touch_x (regs.point i), touch_y (regs.point i))).2 := by
  intro e he
  rcases decode_foldl_snd_mem cfg regs.point (decodeReadIndices regs) (0, []) e he with h | h
  · simp at h
  · exact h

lemma runReleases_snd (rel m : Nat) :
    (runReleases rel m).2
      = ((List.range MAXIMUM_SUPPORTED_POINTS).filter
          (fun i => decide (rel &&& (1 <<< i) ≠ 0))).map Event.release := by
  unfold runReleases
  split
  · next h =>
    subst h
    simp [Nat.zero_and]
  · rw [release_foldl_snd]
    simp

lemma release_mem_runReleases {rel m b : Nat}
    (h : Event.release b ∈ (runReleases rel m).2) :
    rel.testBit b = true ∧ b < MAXIMUM_SUPPORTED_POINTS := by
  rw [runReleases_snd] at h
  rcases List.mem_map.mp h with ⟨i, hi, hie⟩
  have hib : i = b := by
    injection hie
  subst hib
  rcases List.mem_filter.mp hi with ⟨hr, hp⟩
  refine ⟨(land_one_shl rel i).mp (of_decide_eq_true hp), ?_⟩
  exact List.mem_range.mp hr

lemma release_mem_cycle {cfg : Cfg} {known : Nat} {regs : Regs} {b : Nat}
    (h : Event.release b ∈ (ft5406_cycle cfg known regs).2) :
    (releasedIds known (decodeLoop cfg regs).1).testBit b = true
      ∧ b < MAXIMUM_SUPPORTED_POINTS := by
  by_cases hskip : numPoints regs = 99 ∨ (numPoints regs = 0 ∧ known = 0)
  · unfold ft5406_cycle at h
    rw [if_pos hskip] at h
    simp at h
  · rw [cycle_processing cfg known regs hskip] at h
    simp only [List.mem_append] at h
    rcases h with (h | h) | h
    · rcases decodeLoop_snd_mem cfg regs _ h with ⟨i, _, hie⟩
      simp at hie
    · exact release_mem_runReleases h
    · simp at h

lemma update_mem_cycle {cfg : Cfg} {known : Nat} {regs : Regs} {b : Nat} {x y : Int}
    (h : Event.update b x y ∈ (ft5406_cycle cfg known regs).2) :
    ((decodeLoop cfg regs).1).testBit b = true := by
  by_cases hskip : numPoints regs = 99 ∨ (numPoints regs = 0 ∧ known = 0)
  · unfold ft5406_cycle at h
    rw [if_pos hskip] at h
    simp at h
  · rw [cycle_processing cfg known regs hskip] at h
    simp only [List.mem_append] at h
    rcases h with (h | h) | h
    · rcases decodeLoop_snd_mem cfg regs _ h with ⟨i, hi, hie⟩
      have hb : touch_id (regs.point i) = b := by
        injection hie with h1 h2 h3
        exact h1.symm
      rw [decodeLoop_fst_testBit]
      exact List.any_eq_true.mpr ⟨i, hi, decide_eq_true hb⟩
    · rw [runReleases_snd] at h
      rcases List.mem_map.mp h with ⟨i, _, hie⟩
      simp at hie
    · simp at h

/-! ### Claim theorems -/

/-- Claim C2 (code bug): the decode loop does not clamp `num_points` to 10.
At `num_points = 11` (not the sentinel 99) it dereferences
`regs.point[MAXIMUM_SUPPORTED_POINTS]`, an index outside the fixed 10-entry
point array, and decodes 11 records rather than the claimed clamped 10. -/
theorem claim_C2_code_bug :
    MAXIMUM_SUPPORTED_POINTS ∈ decodeReadIndices regs11 ∧
    (decodeReadIndices regs11).length = 11 ∧
    numPoints regs11 ≠ 99 := by decide

/-- Claim C3: a cycle whose frame carries the sentinel count 99, or a zero
count while the carried identity set is empty, is a no-op: `known_ids` is
unchanged and no events are emitted. -/
theorem claim_C3 (cfg : Cfg) (known : Nat) (regs : Regs)
    (h : numPoints regs = 99 ∨ (numPoints regs = 0 ∧ known = 0)) :
    ft5406_cycle cfg known regs = (known, []) := by
  unfold ft5406_cycle
  rw [if_pos h]

/-- Witness for C3: the stale frame with `known_ids = 8` and the empty frame
with `known_ids = 0` are both no-ops. -/
theorem claim_C3_witness :
    (numPoints regs99 = 99 ∨ (numPoints regs99 = 0 ∧ (8 : Nat) = 0)) ∧
    ft5406_cycle cfg0 8 regs99 = (8, []) ∧
    (numPoints regsEmpty = 99 ∨ (numPoints regsEmpty = 0 ∧ (0 : Nat) = 0)) ∧
    ft5406_cycle cfg0 0 regsEmpty = (0, []) :=
  ⟨by decide, claim_C3 cfg0 8 regs99 (by decide), by decide,
    claim_C3 cfg0 0 regsEmpty (by decide)⟩

/-- Claim C5 (counterexample): with current state disabled, a write parsing
as 1 whose `kthread_run` fails leaves the enable state unchanged but returns
`count` (2), a success; no error is surfaced to the caller, contrary to the
claim. -/
theorem claim_C5_counterexample :
    enable_store false envRunFail 2 = (false, 2) ∧
    ¬ (enable_store false envRunFail 2).2 < 0 ∧
    envRunFail.kthread_run_ok = false := by decide

/-- Claim C5 (amended): writing the same boolean value as the current state
changes nothing and succeeds; writing a new value whose start/stop transition
fails leaves the reported enable state unchanged but still returns `count`
(success) to the caller, the failure being only logged, not surfaced. -/
theorem claim_C5_amended (enable : Bool) (env : StoreEnv) (count : Int) (val : Nat)
    (hp : env.kstrtouint = Except.ok val) :
    (enable = decide (val ≠ 0) → enable_store enable env count = (enable, count)) ∧
    (enable = false → val ≠ 0 → env.kthread_run_ok = false →
      enable_store enable env count = (enable, count)) ∧
    (enable = true → val = 0 → env.kthread_stop_err ≠ 0 →
      enable_store enable env count = (enable, count)) := by
  refine ⟨?_, ?_, ?_⟩
  · intro he
    simp [enable_store, hp, he]
  · intro he hv hr
    subst he
    simp [enable_store, hp, hv, hr]
  · intro he hv hs
    subst he
    subst hv
    simp [enable_store, hp, hs]

/-- Witness for the amended C5 at concrete inputs: a same-value write and the
two failing transitions. -/
theorem claim_C5_amended_witness :
    (envRunFail.kstrtouint = Except.ok 1 ∧
      ((false = decide ((1 : Nat) ≠ 0) → enable_store false envRunFail 2 = (false, 2)) ∧
       (false = false → (1 : Nat) ≠ 0 → envRunFail.kthread_run_ok = false →
         enable_store false envRunFail 2 = (false, 2)) ∧
       (false = true → (1 : Nat) = 0 → envRunFail.kthread_stop_err ≠ 0 →
         enable_store false envRunFail 2 = (false, 2)))) ∧
    (envStopFail.kstrtouint = Except.ok 0 ∧
      ((true = decide ((0 : Nat) ≠ 0) → enable_store true envStopFail 2 = (true, 2)) ∧
       (true = false → (0 : Nat) ≠ 0 → envStopFail.kthread_run_ok = false →
         enable_store true envStopFail 2 = (true, 2)) ∧
       (true = true → (0 : Nat) = 0 → envStopFail.kthread_stop_err ≠ 0 →
         enable_store true envStopFail 2 = (true, 2)))) :=
  ⟨⟨rfl, claim_C5_amended false envRunFail 2 1 rfl⟩,
   ⟨rfl, claim_C5_amended true envStopFail 2 0 rfl⟩⟩

/-- Claim C6: for a Down or Contact observation the emitted slot update
carries the position from the spec's transform formula (flips first, then the
swap), and in particular with hflip and max_x = 800 a raw x of 100 maps
to 699. -/
theorem claim_C6 (cfg : Cfg) (t : Touch) (acc : Nat × List Event) (my y : Int)
    (h : event_type t = FTS_TOUCH_DOWN ∨ event_type t = FTS_TOUCH_CONTACT) :
    (pointStep cfg t acc).2 = acc.2 ++ [Event.update (touch_id t)
        (spec_transform cfg (touch_x t) (touch_y t)).1
        (spec_transform cfg (touch_x t) (touch_y t)).2] ∧
    (transform ⟨800, my, true, false, false⟩ (100, y)).1 = 699 := by
  constructor
  · unfold pointStep
    rw [if_pos h]
    rfl
  · norm_num [transform]

/-- Witness for C6 at the Down observation for id 3 at (100, 200). -/
theorem claim_C6_witness :
    (event_type tDown3 = FTS_TOUCH_DOWN ∨ event_type tDown3 = FTS_TOUCH_CONTACT) ∧
    ((pointStep cfg0 tDown3 (0, [])).2 = [] ++ [Event.update (touch_id tDown3)
        (spec_transform cfg0 (touch_x tDown3) (touch_y tDown3)).1
        (spec_transform cfg0 (touch_x tDown3) (touch_y tDown3)).2] ∧
     (transform ⟨800, 480, true, false, false⟩ (100, 200)).1 = 699) :=
  ⟨by decide, claim_C6 cfg0 tDown3 (0, []) 480 200 (by decide)⟩

/-- Claim C9: each flip of the coordinate transform is an involution and the
swap is self-inverse: applying the hflip-only transform twice returns the
original pair, likewise for vflip-only and for xyswap-only. -/
theorem claim_C9 (mx my x y : Int) :
    transform ⟨mx, my, true, false, false⟩
        (transform ⟨mx, my, true, false, false⟩ (x, y)) = (x, y) ∧
    transform ⟨mx, my, false, true, false⟩
        (transform ⟨mx, my, false, true, false⟩ (x, y)) = (x, y) ∧
    transform ⟨mx, my, false, false, true⟩
        (transform ⟨mx, my, false, false, true⟩ (x, y)) = (x, y) := by
  refine ⟨?_, ?_, ?_⟩
  · simp only [transform, Prod.ext_iff]
    norm_num
  · simp only [transform, Prod.ext_iff]
    norm_num
  · simp [transform]

/-- Claim C1 (counterexample): with id 3 live and a frame holding a single
Up observation for id 3, the decode loop still adds id 3 to `modified_ids`
(it becomes 8, not the claimed 0), so the release set of this same cycle is
empty, no release is emitted for id 3, and id 3 stays in the carried set —
contradicting the claim that an Up observation contributes nothing to the
modified set and falls into this cycle's release set. -/
theorem claim_C1_counterexample :
    event_type (regsUp3.point 0) = FTS_TOUCH_UP ∧
    (decodeLoop cfg0 regsUp3).1 = 8 ∧
    releasedIds 8 (decodeLoop cfg0 regsUp3).1 = 0 ∧
    Event.release 3 ∉ (ft5406_cycle cfg0 8 regsUp3).2 ∧
    (ft5406_cycle cfg0 8 regsUp3).1 = 8 := by decide

/-- Claim C1 (amended): the modified identity set contains exactly the ids of
all observations decoded this cycle, regardless of kind (Up and the reserved
kind 3 included); consequently an id with any observation this cycle — in
particular one reported only as Up — is not in the release set and receives
no release event this cycle. -/
theorem claim_C1_amended (cfg : Cfg) (known : Nat) (regs : Regs) (b : Nat) :
    (((decodeLoop cfg regs).1).testBit b
       = (decodeReadIndices regs).any (fun i => decide (touch_id (regs.point i) = b))) ∧
    ((∃ i ∈ decodeReadIndices regs, touch_id (regs.point i) = b) →
       (releasedIds known (decodeLoop cfg regs).1).testBit b = false ∧
       Event.release b ∉ (ft5406_cycle cfg known regs).2) := by
  refine ⟨decodeLoop_fst_testBit cfg regs b, ?_⟩
  rintro ⟨i, hi, hid⟩
  have hb : b < 32 := by
    have h16 := touch_id_lt (regs.point i)
    omega
  have hm : ((decodeLoop cfg regs).1).testBit b = true := by
    rw [decodeLoop_fst_testBit]
    exact List.any_eq_true.mpr ⟨i, hi, decide_eq_true hid⟩
  have hrel : (releasedIds known (decodeLoop cfg regs).1).testBit b = false := by
    rw [releasedIds_testBit _ _ _ hb, hm]
    simp
  refine ⟨hrel, fun hmem => ?_⟩
  have h2 := (release_mem_cycle hmem).1
  rw [hrel] at h2
  exact Bool.false_ne_true h2

/-- Witness for the amended C1 at the Up-only frame for id 3. -/
theorem claim_C1_amended_witness :
    (((decodeLoop cfg0 regsUp3).1).testBit 3
       = (decodeReadIndices regsUp3).any (fun i => decide (touch_id (regsUp3.point i) = 3))) ∧
    ((∃ i ∈ decodeReadIndices regsUp3, touch_id (regsUp3.point i) = 3) →
       (releasedIds 8 (decodeLoop cfg0 regsUp3).1).testBit 3 = false ∧
       Event.release 3 ∉ (ft5406_cycle cfg0 8 regsUp3).2) :=
  claim_C1_amended cfg0 8 regsUp3 3

/-- Claim C7: within one cycle no id receives both a position update and a
release: an update for id b implies its bit is in `modified_ids`, so the bit
is not in `released_ids` and no release for b is emitted. -/
theorem claim_C7 (cfg : Cfg) (known : Nat) (regs : Regs) (b : Nat) (x y : Int)
    (hu : Event.update b x y ∈ (ft5406_cycle cfg known regs).2) :
    Event.release b ∉ (ft5406_cycle cfg known regs).2 := by
  intro hr
  have hm := update_mem_cycle hu
  have h2 := release_mem_cycle hr
  have hb : b < 32 := by
    have h10 := h2.2
    have hmx : MAXIMUM_SUPPORTED_POINTS = 10 := rfl
    omega
  have h1 := h2.1
  rw [releasedIds_testBit _ _ _ hb, hm] at h1
  simp at h1

/-- Witness for C7: the Down frame for id 3 yields an update and no release
for id 3. -/
theorem claim_C7_witness :
    Event.update 3 100 200 ∈ (ft5406_cycle cfg0 0 regsS).2 ∧
    Event.release 3 ∉ (ft5406_cycle cfg0 0 regsS).2 :=
  ⟨by decide, claim_C7 cfg0 0 regsS 3 100 200 (by decide)⟩

/-- Claim C8: in every processing cycle the emitted sequence is the update
events, then the release events, then the pointer-emulation event, then the
sync marker. -/
theorem claim_C8 (cfg : Cfg) (known : Nat) (regs : Regs)
    (h : ¬(numPoints regs = 99 ∨ (numPoints regs = 0 ∧ known = 0))) :
    ∃ us rs, (ft5406_cycle cfg known regs).2 = us ++ rs ++ [Event.pointerEmu, Event.sync] ∧
      (∀ e ∈ us, ∃ id x y, e = Event.update id x y) ∧
      (∀ e ∈ rs, ∃ id, e = Event.release id) := by
  refine ⟨(decodeLoop cfg regs).2,
    (runReleases (releasedIds known (decodeLoop cfg regs).1) (decodeLoop cfg regs).1).2,
    ?_, ?_, ?_⟩
  · rw [cycle_processing cfg known regs h]
  · intro e he
    rcases decodeLoop_snd_mem cfg regs e he with ⟨i, _, rfl⟩
    exact ⟨_, _, _, rfl⟩
  · intro e he
    rw [runReleases_snd] at he
    rcases List.mem_map.mp he with ⟨i, _, rfl⟩
    exact ⟨i, rfl⟩

/-- Witness for C8 at the Down frame for id 3. -/
theorem claim_C8_witness :
    ¬(numPoints regsS = 99 ∨ (numPoints regsS = 0 ∧ (0 : Nat) = 0)) ∧
    (∃ us rs, (ft5406_cycle cfg0 0 regsS).2 = us ++ rs ++ [Event.pointerEmu, Event.sync] ∧
      (∀ e ∈ us, ∃ id x y, e = Event.update id x y) ∧
      (∀ e ∈ rs, ∃ id, e = Event.release id)) :=
  ⟨by decide, claim_C8 cfg0 0 regsS (by decide)⟩

/-- Claim C4 (counterexample): id 12 is reported Down in cycle N (the carried
set becomes 4096) and is absent from cycle N+1's frame, yet cycle N+1 emits
zero release events for id 12 — the release loop never scans bit 12 — so the
claim's "exactly one release for every such contact id" fails for ids
above 9. -/
theorem claim_C4_counterexample :
    event_type (regsDown12.point 0) = FTS_TOUCH_DOWN ∧
    touch_id (regsDown12.point 0) = 12 ∧
    ft5406_cycle cfg0 0 regsDown12
      = (4096, [Event.update 12 50 60, Event.pointerEmu, Event.sync]) ∧
    (ft5406_cycle cfg0 4096 regsEmpty).2.count (Event.release 12) = 0 := by decide

/-- Claim C4 (amended): for a contact id below MAXIMUM_SUPPORTED_POINTS that
is in the carried identity set but has no observation in the next processed
frame, exactly one release event is emitted for it in that cycle, the id
leaves the carried set, and no cycle whose carried set lacks the id ever
emits a release for it (so no duplicates while it stays absent). Ids 10-15
are excluded: the release loop never scans them. -/
theorem claim_C4_amended (cfg : Cfg) (known : Nat) (regs : Regs) (b : Nat)
    (hb : b < MAXIMUM_SUPPORTED_POINTS)
    (hknown : known.testBit b = true)
    (habs : ∀ i ∈ decodeReadIndices regs, touch_id (regs.point i) ≠ b)
    (hnp : numPoints regs ≠ 99) :
    (ft5406_cycle cfg known regs).2.count (Event.release b) = 1 ∧
    ((ft5406_cycle cfg known regs).1).testBit b = false ∧
    (∀ (known2 : Nat) (regs2 : Regs), known2.testBit b = false →
       Event.release b ∉ (ft5406_cycle cfg known2 regs2).2) := by
  have hmx : MAXIMUM_SUPPORTED_POINTS = 10 := rfl
  have hb32 : b < 32 := by omega
  have hk0 : known ≠ 0 := testBit_ne_zero hknown
  have hproc : ¬(numPoints regs = 99 ∨ (numPoints regs = 0 ∧ known = 0)) := by
    rintro (h99 | ⟨_, h0⟩)
    · exact hnp h99
    · exact hk0 h0
  have hmod : ((decodeLoop cfg regs).1).testBit b = false := by
    rw [decodeLoop_fst_testBit]
    apply List.any_eq_false.mpr
    intro i hi
    simpa using habs i hi
  have hrel : (releasedIds known (decodeLoop cfg regs).1).testBit b = true := by
    rw [releasedIds_testBit _ _ _ hb32, hmod, hknown]
    rfl
  have hrelne : releasedIds known (decodeLoop cfg regs).1 ≠ 0 := testBit_ne_zero hrel
  refine ⟨?_, ?_, ?_⟩
  · rw [cycle_processing cfg known regs hproc]
    simp only [List.count_append]
    have hdec : ((decodeLoop cfg regs).2).count (Event.release b) = 0 := by
      apply List.count_eq_zero.mpr
      intro hmem
      rcases decodeLoop_snd_mem cfg regs _ hmem with ⟨i, _, hie⟩
      simp at hie
    have hfin : ((runReleases (releasedIds known (decodeLoop cfg regs).1)
        (decodeLoop cfg regs).1).2).count (Event.release b) = 1 := by
      rw [runReleases_snd]
      apply List.count_eq_one_of_mem
      · apply List.Nodup.map
        · intro a1 a2 h12
          injection h12
        · exact (List.nodup_range _).filter _
      · apply List.mem_map.mpr
        refine ⟨b, List.mem_filter.mpr ⟨List.mem_range.mpr hb, ?_⟩, rfl⟩
        exact decide_eq_true ((land_one_shl _ _).mpr hrel)
    rw [hdec, hfin]
    rfl
  · rw [cycle_processing cfg known regs hproc]
    unfold runReleases
    rw [if_neg hrelne, release_foldl_fst_testBit _ _ _ _ hb32]
    have hacc : ((decodeLoop cfg regs).1, ([] : List Event)).1.testBit b = false := hmod
    rw [hacc]
    rfl
  · intro known2 regs2 hk2 hmem
    have h2 := (release_mem_cycle hmem).1
    rw [releasedIds_testBit _ _ _ hb32, hk2] at h2
    simp at h2

/-- Witness for the amended C4: id 3 live, empty next frame — exactly one
release, and a cycle with id 3 not carried emits none. -/
theorem claim_C4_amended_witness :
    ((3 : Nat) < MAXIMUM_SUPPORTED_POINTS ∧ (8 : Nat).testBit 3 = true ∧
     (∀ i ∈ decodeReadIndices regsEmpty, touch_id (regsEmpty.point i) ≠ 3) ∧
     numPoints regsEmpty ≠ 99) ∧
    ((ft5406_cycle cfg0 8 regsEmpty).2.count (Event.release 3) = 1 ∧
     ((ft5406_cycle cfg0 8 regsEmpty).1).testBit 3 = false ∧
     (∀ (known2 : Nat) (regs2 : Regs), known2.testBit 3 = false →
        Event.release 3 ∉ (ft5406_cycle cfg0 known2 regs2).2)) :=
  ⟨⟨by decide, by decide, by decide, by decide⟩,
   claim_C4_amended cfg0 8 regsEmpty 3 (by decide) (by decide) (by decide) (by decide)⟩

/-- Claim C10: the release loop scans only bit indices
0 .. MAXIMUM_SUPPORTED_POINTS - 1, so an id in 10-15 that is carried but not
reasserted gets no release event and is silently dropped from the carried
identity set. -/
theorem claim_C10 (cfg : Cfg) (known : Nat) (regs : Regs) (b : Nat)
    (h10 : MAXIMUM_SUPPORTED_POINTS ≤ b) (h16 : b < 16)
    (hknown : known.testBit b = true)
    (habs : ∀ i ∈ decodeReadIndices regs, touch_id (regs.point i) ≠ b)
    (hnp : numPoints regs ≠ 99) :
    Event.release b ∉ (ft5406_cycle cfg known regs).2 ∧
    ((ft5406_cycle cfg known regs).1).testBit b = false := by
  have hmx : MAXIMUM_SUPPORTED_POINTS = 10 := rfl
  have hb32 : b < 32 := by omega
  have hk0 : known ≠ 0 := testBit_ne_zero hknown
  have hproc : ¬(numPoints regs = 99 ∨ (numPoints regs = 0 ∧ known = 0)) := by
    rintro (h99 | ⟨_, h0⟩)
    · exact hnp h99
    · exact hk0 h0
  have hmod : ((decodeLoop cfg regs).1).testBit b = false := by
    rw [decodeLoop_fst_testBit]
    apply List.any_eq_false.mpr
    intro i hi
    simpa using habs i hi
  have hrel : (releasedIds known (decodeLoop cfg regs).1).testBit b = true := by
    rw [releasedIds_testBit _ _ _ hb32, hmod, hknown]
    rfl
  have hrelne : releasedIds known (decodeLoop cfg regs).1 ≠ 0 := testBit_ne_zero hrel
  constructor
  · intro hmem
    have h2 := (release_mem_cycle hmem).2
    omega
  · rw [cycle_processing cfg known regs hproc]
    unfold runReleases
    rw [if_neg hrelne, release_foldl_fst_testBit _ _ _ _ hb32]
    have hacc : ((decodeLoop cfg regs).1, ([] : List Event)).1.testBit b = false := hmod
    rw [hacc]
    rfl

/-- Witness for C10: id 12 carried (mask 4096), empty next frame — no
release event and the id is dropped from the carried set. -/
theorem claim_C10_witness :
    (MAXIMUM_SUPPORTED_POINTS ≤ 12 ∧ (12 : Nat) < 16 ∧ (4096 : Nat).testBit 12 = true ∧
     (∀ i ∈ decodeReadIndices regsEmpty, touch_id (regsEmpty.point i) ≠ 12) ∧
     numPoints regsEmpty ≠ 99) ∧
    (Event.release 12 ∉ (ft5406_cycle cfg0 4096 regsEmpty).2 ∧
     ((ft5406_cycle cfg0 4096 regsEmpty).1).testBit 12 = false) :=
  ⟨⟨by decide, by decide, by decide, by decide, by decide⟩,
   claim_C10 cfg0 4096 regsEmpty 12 (by decide) (by decide) (by decide) (by decide) (by decide)⟩

end FT5406
